import Mathlib

/-!
Verification development for a chat front-end that relays user messages to a
remote hosted agent, polls a run until a terminal status, extracts the
assistant's reply text and renders it.

The definitions below are a shallow embedding of `chainlit_foundry_chat.py`:
pure helpers become Lean functions, the remote service and the wall clock are
an explicit environment (`Env`), the poll loop is fuel-indexed, and Python
exceptions are modelled with `Except`/`Option`.
-/

set_option maxRecDepth 10000

/-! ## Python string helpers -/

/-- The characters Python `str.strip()` removes: exactly those with
`str.isspace()` true, i.e. codepoints 0x09-0x0d, 0x1c-0x1f, 0x20, 0x85 (NEL),
0xa0 (NBSP), 0x1680, 0x2000-0x200a, 0x2028, 0x2029, 0x202f, 0x205f, 0x3000. -/
def pyIsSpace (c : Char) : Bool :=
  (decide (0x09 ≤ c.toNat) && decide (c.toNat ≤ 0x0d)) ||
  (decide (0x1c ≤ c.toNat) && decide (c.toNat ≤ 0x20)) ||
  c.toNat == 0x85 || c.toNat == 0xa0 || c.toNat == 0x1680 ||
  (decide (0x2000 ≤ c.toNat) && decide (c.toNat ≤ 0x200a)) ||
  c.toNat == 0x2028 || c.toNat == 0x2029 || c.toNat == 0x202f ||
  c.toNat == 0x205f || c.toNat == 0x3000

/-- `str.strip()` on the underlying character list. -/
def stripL (l : List Char) : List Char :=
  ((l.dropWhile pyIsSpace).reverse.dropWhile pyIsSpace).reverse

/-- Python `str.strip()`. -/
def pyStrip (s : String) : String := ⟨stripL s.data⟩

/-- Python `s.startswith('#')`: the first character is `'#'`. -/
def startsWithHash (s : String) : Bool :=
  match s.data with
  | [] => false
  | c :: _ => c == '#'

/-- List version of Python `str.startswith`. -/
def leadsWith : List Char → List Char → Bool
  | [], _ => true
  | _ :: _, [] => false
  | a :: as, b :: bs => a == b && leadsWith as bs

/-- List version of Python `sub in s` (substring occurrence). -/
def occursIn (sub : List Char) : List Char → Bool
  | [] => leadsWith sub []
  | b :: bs => leadsWith sub (b :: bs) || occursIn sub bs

/-! ## Response Formatter (`format_agent_response`) -/

/-- The heading prepended to unheaded responses, `"## 🤖 Agent Response\n\n"`. -/
def headingText : String := "## 🤖 Agent Response\n\n"

/-- The fixed notice returned for falsy input. -/
def noContentResponse : String := "## 🤖 Agent Response\n\nNo response content available."

/-- The code-or-class detection of `format_agent_response`:
`'```' in response_text or response_text.startswith('def ') or
response_text.startswith('class ')`. -/
def looksTechnical (t : String) : Bool :=
  occursIn "```".data t.data || leadsWith "def ".data t.data || leadsWith "class ".data t.data

/-- `format_agent_response(response_text)`.  The Python parameter may be `None`
or a string; `if not response_text` is true for `None` and `""`. -/
def format_agent_response (response_text : Option String) : String :=
  match response_text with
  | none => noContentResponse
  | some s =>
    if s = "" then noContentResponse
    else
      let t := pyStrip s
      if startsWithHash t = false then
        if looksTechnical t then headingText ++ t
        else headingText ++ t
      else t

/-! ## Response Extractor (`extract_message_content`) -/

/-- A Python object carried by a content part's `text` attribute; `value` is
`some` exactly when `hasattr(text, 'value')`. -/
structure TextVal where
  value : Option String
deriving DecidableEq

/-- A content part of a thread message.  `text`/`type` are `some` exactly when
the Python object has that attribute. -/
structure ContentItem where
  text : Option TextVal
  type : Option String
deriving DecidableEq

/-- A thread message.  `content` is `some` exactly when the record has a
`content` attribute. -/
structure ThreadMessage where
  role : String
  created_at : Nat
  content : Option (List ContentItem)
deriving DecidableEq

/-- Outcome of examining one content part inside the loop of
`extract_message_content`. -/
inductive StepRes where
  | found (v : String)
  | skip
  | exc
deriving DecidableEq

/-- One iteration of the loop body:
`if hasattr(item, 'text') and hasattr(item.text, 'value'): return item.text.value`
`elif hasattr(item, 'type') and item.type == 'text': return item.text.value`.
The `elif` arm reads `item.text.value` again; when `text` is absent or lacks
`value`, that read raises `AttributeError`. -/
def extractStep (ci : ContentItem) : StepRes :=
  match ci.text with
  | some tv =>
    match tv.value with
    | some v => StepRes.found v
    | none =>
      if ci.type = some "text" then StepRes.exc else StepRes.skip
  | none =>
    if ci.type = some "text" then StepRes.exc else StepRes.skip

/-- The scan over content parts; `Except.error` models a raised exception. -/
def extractLoop : List ContentItem → Except Unit (Option String)
  | [] => Except.ok none
  | ci :: rest =>
    match extractStep ci with
    | StepRes.found v => Except.ok (some v)
    | StepRes.skip => extractLoop rest
    | StepRes.exc => Except.error ()

/-- The `try` body of `extract_message_content`:
`if hasattr(message, 'content') and message.content:` guards the loop; an
absent or empty `content` yields `None`. -/
def extractBody (m : ThreadMessage) : Except Unit (Option String) :=
  match m.content with
  | none => Except.ok none
  | some [] => Except.ok none
  | some (ci :: rest) => extractLoop (ci :: rest)

/-- `extract_message_content(message)`: the `except` clause turns any raised
exception into `None`. -/
def extract_message_content (m : ThreadMessage) : Option String :=
  match extractBody m with
  | Except.ok r => r
  | Except.error _ => none

/-! ## Run records and the poll loop (`wait_for_run_completion`) -/

/-- The `last_error` object of a failed run; `message` is `some` exactly when
the dict carries a `message` key. -/
structure LastError where
  message : Option String
deriving DecidableEq

/-- A run record as returned by `runs.get`.  `last_error` is `some` exactly
when `getattr(run, 'last_error', {})` yields a truthy value. -/
structure RunRec where
  status : String
  created_at : Nat
  last_error : Option LastError
deriving DecidableEq

/-- The terminal status set `["completed", "failed", "cancelled", "expired"]`. -/
def isTerminal (s : String) : Bool :=
  s == "completed" || s == "failed" || s == "cancelled" || s == "expired"

/-- Remote calls issued by the coordinator, recorded as a trace. -/
inductive RemoteAction where
  | createMessage
  | createRun
  | getRun
  | cancelRun
  | getLastMessageText
  | listMessages
deriving DecidableEq

/-- The environment: session state, the remote service's replies and the wall
clock.  `poll k` is the run returned by the k-th `runs.get`; `clock k` is the
`time.time()` reading at the k-th timeout check; `t0` is the reading taken
into `start_time`; `cancelFails` tells whether `runs.cancel` raises;
`lastMsgText` is the outcome of `get_last_message_text_by_role` (error =
raised); `messages` is the list returned by `messages.list`. -/
structure Env where
  thread_id : Option String
  poll : Nat → RunRec
  clock : Nat → Nat
  t0 : Nat
  cancelFails : Bool
  lastMsgText : Except Unit (Option String)
  messages : List ThreadMessage

/-- Replace only the `cancelFails` component of an environment. -/
def setCancelFails (env : Env) (b : Bool) : Env :=
  ⟨env.thread_id, env.poll, env.clock, env.t0, b, env.lastMsgText, env.messages⟩

/-- Result of the poll loop: a returned terminal run, or the raised
`TimeoutError` (carrying `max_wait_time` for its message). -/
inductive WaitRes where
  | finished (run : RunRec)
  | timedOut (maxWait : Nat)
deriving DecidableEq

/-- The `try: cancel ... except: pass` around `runs.cancel`. -/
def cancelOutcome (env : Env) : Except Unit Unit :=
  if env.cancelFails then Except.error () else Except.ok ()

/-- The body of the `while True:` loop of `wait_for_run_completion`, indexed
by the iteration counter `k` and a fuel bound; `none` means the fuel ran out
before the loop stopped.  Each iteration: fetch the run; return it if its
status is terminal; otherwise if `time.time() - start_time > max_wait_time`,
attempt a best-effort cancel (failure swallowed) and raise `TimeoutError`;
otherwise sleep and continue. -/
def waitGo (env : Env) (maxWait : Nat) : Nat → Nat → Option (WaitRes × List RemoteAction)
  | _, 0 => none
  | k, Nat.succ fuel =>
    let run := env.poll k
    if isTerminal run.status then some (WaitRes.finished run, [RemoteAction.getRun])
    else if maxWait < env.clock k - env.t0 then
      match cancelOutcome env with
      | Except.ok _ => some (WaitRes.timedOut maxWait, [RemoteAction.getRun, RemoteAction.cancelRun])
      | Except.error _ => some (WaitRes.timedOut maxWait, [RemoteAction.getRun, RemoteAction.cancelRun])
    else
      match waitGo env maxWait (k + 1) fuel with
      | none => none
      | some (r, as) => some (r, RemoteAction.getRun :: as)

/-- `wait_for_run_completion(thread_id, run_id, max_wait_time)`: run the poll
loop from its first iteration. -/
def wait_for_run_completion (env : Env) (maxWait : Nat) (fuel : Nat) :
    Option (WaitRes × List RemoteAction) :=
  waitGo env maxWait 0 fuel

/-! ## Rendered message templates of `handle_message` -/

/-- The session-error notice sent when `thread_id` is falsy. -/
def sessionErrorText : String :=
  "# ⚠️ Session Error\n\n**Chat session not properly initialized**\n\nPlease refresh the page and try again."

/-- The sentinel notice sent when no assistant response is found. -/
def noResponseText : String :=
  "## 🤔 No Response\n\nThe agent processed your message but didn\x27t provide a response. \n\n**Please try:**\n- Rephrasing your question\n- Being more specific about what you need\n- Asking a different question"

/-- Text before the error message in the failure notice. -/
def failedTextPre : String :=
  "## ❌ Processing Failed\n\n**The agent encountered an error while processing your message:**\n\n```\n"

/-- Text after the error message in the failure notice. -/
def failedTextPost : String :=
  "\n```\n\nPlease try rephrasing your question or ask something else."

/-- The failure notice rendered for a `failed` run. -/
def failedText (errorMessage : String) : String :=
  failedTextPre ++ errorMessage ++ failedTextPost

/-- Text before the status string in the unexpected-status notice. -/
def unexpectedTextPre : String :=
  "## ❓ Unexpected Status\n\n**The agent run completed with status:** `"

/-- Text after the status string in the unexpected-status notice. -/
def unexpectedTextPost : String :=
  "`\n\nThis is unusual. Please try sending your message again."

/-- The notice rendered for a terminal status that is neither `completed` nor
`failed`. -/
def unexpectedText (status : String) : String :=
  unexpectedTextPre ++ status ++ unexpectedTextPost

/-- Text before the exception description in the generic processing-error
notice of the outer `except`. -/
def processingErrorPre : String :=
  "## ❌ Processing Error\n\n**An error occurred while processing your message:**\n\n```\n"

/-- Text after the exception description in the generic processing-error
notice. -/
def processingErrorPost : String :=
  "\n```\n\nPlease try again or rephrase your question."

/-- The generic processing-error notice rendered by the outer `except`. -/
def processingErrorText (e : String) : String :=
  processingErrorPre ++ e ++ processingErrorPost

/-- `str(TimeoutError(f"Agent response timed out after {max_wait_time} seconds"))`. -/
def timeoutText (maxWait : Nat) : String :=
  "Agent response timed out after " ++ toString maxWait ++ " seconds"

/-- `error_details.get('message', 'Unknown error') if error_details else 'Unknown error'`. -/
def lastErrorMessage (run : RunRec) : String :=
  match run.last_error with
  | none => "Unknown error"
  | some le =>
    match le.message with
    | none => "Unknown error"
    | some m => m

/-! ## Run Coordinator (`handle_message`) -/

/-- The primary path: `get_last_message_text_by_role` wrapped in
`try ... except: pass`, followed by the truthiness test `if response_text:`.
Yields `some` exactly when the call succeeds with a non-empty text. -/
def primaryText (r : Except Unit (Option String)) : Option String :=
  match r with
  | Except.ok (some s) => if s = "" then none else some s
  | Except.ok none => none
  | Except.error _ => none

/-- The fallback loop over `messages.list`: the first message with
`role == "assistant"`, `created_at >= run.created_at` and a truthy extracted
text; messages failing the truthiness test are skipped and the scan goes on. -/
def fallbackText : List ThreadMessage → Nat → Option String
  | [], _ => none
  | m :: rest, t =>
    if m.role = "assistant" ∧ t ≤ m.created_at then
      match extract_message_content m with
      | some v => if v = "" then fallbackText rest t else some v
      | none => fallbackText rest t
    else fallbackText rest t

/-- The `run.status == "completed"` branch of `handle_message`: primary path,
then fallback scan, then the sentinel no-response notice. -/
def completedBranch (env : Env) (run : RunRec) (acts : List RemoteAction) :
    String × List RemoteAction :=
  match primaryText env.lastMsgText with
  | some s => (format_agent_response (some s), acts)
  | none =>
    match fallbackText env.messages run.created_at with
    | some s => (format_agent_response (some s), acts ++ [RemoteAction.listMessages])
    | none => (noResponseText, acts ++ [RemoteAction.listMessages])

/-- Branch on the poll loop's outcome: a raised `TimeoutError` reaches the
outer `except` and renders a generic processing-error notice; a terminal run
is dispatched on its status. -/
def afterWait (env : Env) (res : WaitRes) (acts : List RemoteAction) :
    String × List RemoteAction :=
  match res with
  | WaitRes.timedOut mw => (processingErrorText (timeoutText mw), acts)
  | WaitRes.finished run =>
    if run.status = "completed" then
      completedBranch env run (acts ++ [RemoteAction.getLastMessageText])
    else if run.status = "failed" then (failedText (lastErrorMessage run), acts)
    else (unexpectedText run.status, acts)

/-- `handle_message(message)`: check the session's `thread_id` (falsy when
`None` or empty), then append the user message, create a run, poll it with
`wait_for_run_completion` (default `max_wait_time = 60`), and branch on the
outcome.  Returns the content of the one chat message sent, paired with the
trace of remote calls; `none` means the poll loop never stopped. -/
def handle_message (env : Env) (fuel : Nat) : Option (String × List RemoteAction) :=
  match env.thread_id with
  | none => some (sessionErrorText, [])
  | some tid =>
    if tid = "" then some (sessionErrorText, [])
    else
      match waitGo env 60 0 fuel with
      | none => none
      | some (res, was) =>
        some (afterWait env res ([RemoteAction.createMessage, RemoteAction.createRun] ++ was))

/-! ## Spec-side description of the completed branch -/

/-- A qualifying assistant message in the spec's sense: assistant role,
created at or after the run, and yielding non-empty extracted text. -/
def qualifyingAssistant (runCreatedAt : Nat) (m : ThreadMessage) : Bool :=
  m.role == "assistant" && decide (runCreatedAt ≤ m.created_at)
    && (extract_message_content m).getD "" != ""

/-- The response text the spec predicts for a completed run: the primary
convenience call when it succeeds non-empty, else the extracted text of the
first qualifying assistant message, else the sentinel notice. -/
def expectedCompletedText (env : Env) (run : RunRec) : String :=
  match primaryText env.lastMsgText with
  | some s => format_agent_response (some s)
  | none =>
    match env.messages.find? (qualifyingAssistant run.created_at) with
    | some m => format_agent_response (extract_message_content m)
    | none => noResponseText

/-! ## Startup configuration validation -/

/-- Python truthiness of an `os.getenv` result: a present, non-empty string. -/
def truthyOpt (o : Option String) : Bool :=
  match o with
  | none => false
  | some s => s != ""

/-- The fixed message of the `ValueError` raised when configuration is
incomplete. -/
def configErrorText : String :=
  "Missing required environment variables. Please ensure you have set:\n- AZURE_AI_FOUNDRY_ENDPOINT\n- AZURE_AI_FOUNDRY_API_KEY\n- AZURE_AI_FOUNDRY_AGENT_ID"

/-- The module-level validation:
`if not all([ENDPOINT, API_KEY, AGENT_ID]): raise ValueError(...)`. -/
def validateConfig (endpoint apiKey agentId : Option String) : Except String Unit :=
  if truthyOpt endpoint && truthyOpt apiKey && truthyOpt agentId then Except.ok ()
  else Except.error configErrorText

/-! ## Concrete sample environments -/

/-- A run record with the given status, used for concrete instantiations. -/
def sampleRun (status : String) : RunRec := ⟨status, 5, none⟩

/-- An environment whose run immediately reports the given status. -/
def sampleEnv (status : String) (lm : Except Unit (Option String)) : Env :=
  ⟨some "t", fun _ => sampleRun status, fun k => k, 0, false, lm, []⟩

/-- An environment whose run never leaves `in_progress`. -/
def stuckEnv : Env :=
  ⟨some "t", fun _ => ⟨"in_progress", 0, none⟩, fun k => k, 0, false, Except.error (), []⟩

/-- An environment with no session `thread_id`. -/
def emptyEnv : Env :=
  ⟨none, fun _ => ⟨"completed", 0, none⟩, fun k => k, 0, false, Except.error (), []⟩

/-! ## String helper lemmas -/

theorem strExt (a b : String) (h : a.data = b.data) : a = b := by
  cases a; cases b; exact congrArg String.mk h

theorem strDataAppend (a b : String) : (a ++ b).data = a.data ++ b.data := by
  cases a; cases b; rfl

theorem strMkData (s : String) : String.mk s.data = s := by
  cases s; rfl

theorem strAppendEmpty (a : String) : a ++ "" = a := by
  apply strExt
  rw [strDataAppend]
  simp

theorem strAppendNeEmpty (a b : String) (h : a ≠ "") : a ++ b ≠ "" := by
  intro he
  apply h
  have hd := congrArg String.data he
  rw [strDataAppend] at hd
  have : a.data = [] := (List.append_eq_nil.mp hd).1
  apply strExt
  simpa using this

theorem startsWithHash_append (a b : String) (h : startsWithHash a = true) :
    startsWithHash (a ++ b) = true := by
  unfold startsWithHash at h ⊢
  rw [strDataAppend]
  cases hd : a.data with
  | nil => rw [hd] at h; exact absurd h (by simp)
  | cons c l => rw [hd] at h; simpa using h

theorem startsWithHash_ne_empty (s : String) (h : startsWithHash s = true) : s ≠ "" := by
  intro he
  rw [he] at h
  exact absurd h (by decide)

/-! ## Strip lemmas -/

theorem dropWhile_eq_self_of_head (p : Char → Bool) (l : List Char)
    (h : ∀ c, l.head? = some c → p c = false) : l.dropWhile p = l := by
  cases l with
  | nil => rfl
  | cons a t => exact List.dropWhile_cons_of_neg (by simp [h a rfl])

theorem head_dropWhile_false (p : Char → Bool) (l : List Char) (c : Char)
    (h : (l.dropWhile p).head? = some c) : p c = false := by
  have hm := List.head?_dropWhile_not p l
  rw [h] at hm
  exact hm

theorem stripL_getLast_not_space (l : List Char) (c : Char)
    (h : (stripL l).getLast? = some c) : pyIsSpace c = false := by
  unfold stripL at h
  rw [List.getLast?_reverse] at h
  exact head_dropWhile_false _ _ _ h

theorem stripL_no_outer_space (l : List Char)
    (hh : ∀ c, l.head? = some c → pyIsSpace c = false)
    (hl : ∀ c, l.getLast? = some c → pyIsSpace c = false) : stripL l = l := by
  unfold stripL
  rw [dropWhile_eq_self_of_head _ _ hh]
  rw [dropWhile_eq_self_of_head _ _ (by intro c hc; exact hl c (by rwa [List.head?_reverse] at hc))]
  exact List.reverse_reverse l

theorem getLast_append_right (l m : List Char) (h : m ≠ []) :
    (l ++ m).getLast? = m.getLast? := by
  rw [List.getLast?_append]
  cases m with
  | nil => exact absurd rfl h
  | cons a t => simp [List.getLast?_cons]

/-- Stripping a string that is the heading followed by an already-stripped
non-empty tail changes nothing: the heading starts with a non-space `'#'` and
the tail ends in a non-space character. -/
theorem pyStrip_heading_append (s : String) (hne : pyStrip s ≠ "") :
    pyStrip (headingText ++ pyStrip s) = headingText ++ pyStrip s := by
  apply strExt
  show stripL (headingText ++ pyStrip s).data = (headingText ++ pyStrip s).data
  rw [strDataAppend]
  have hdata : (pyStrip s).data ≠ [] := by
    intro h
    exact hne (strExt _ _ (by simpa using h))
  apply stripL_no_outer_space
  · intro c hc
    have : c = '#' := by
      have : (headingText.data ++ (pyStrip s).data).head? = some '#' := rfl
      rw [this] at hc
      exact (Option.some.inj hc).symm
    rw [this]
    decide
  · intro c hc
    rw [getLast_append_right _ _ hdata] at hc
    exact stripL_getLast_not_space s.data c hc

/-! ## Formatter lemmas -/

theorem format_falsy_eq (x : Option String) (h : x = none ∨ x = some "") :
    format_agent_response x = noContentResponse := by
  rcases h with rfl | rfl <;> simp [format_agent_response]

theorem format_some_eq (s : String) :
    format_agent_response (some s) =
      if s = "" then noContentResponse
      else
        if startsWithHash (pyStrip s) = false then
          if looksTechnical (pyStrip s) then headingText ++ pyStrip s
          else headingText ++ pyStrip s
        else pyStrip s := rfl

theorem format_unheaded_eq (s : String) (hs : s ≠ "")
    (hh : startsWithHash (pyStrip s) = false) :
    format_agent_response (some s) = headingText ++ pyStrip s := by
  rw [format_some_eq, if_neg hs, if_pos hh]
  exact ite_self _

theorem format_headed_eq (s : String) (hs : s ≠ "")
    (hh : startsWithHash (pyStrip s) = true) :
    format_agent_response (some s) = pyStrip s := by
  rw [format_some_eq, if_neg hs, if_neg (by simp [hh])]

theorem format_ne_empty (x : Option String) : format_agent_response x ≠ "" := by
  match x with
  | none => decide
  | some s =>
    by_cases hs : s = ""
    · rw [hs]; decide
    · by_cases hh : startsWithHash (pyStrip s) = true
      · rw [format_headed_eq s hs hh]
        exact startsWithHash_ne_empty _ hh
      · rw [format_unheaded_eq s hs (by simpa using hh)]
        exact strAppendNeEmpty _ _ (by decide)

/-! ## Claim C8 -/

/-- C8: `format_agent_response` maps absent (None or empty) input to the fixed
no-content notice; otherwise it trims the input, prepends the generic
"Agent Response" heading when the trimmed text does not begin with `'#'`
(uniformly — the code-looking branch and the prose branch yield the same
output), returns the trimmed text unchanged when it begins with `'#'`, and
its output is never empty. -/
theorem format_agent_response_spec (x : Option String) :
    ((x = none ∨ x = some "") → format_agent_response x = noContentResponse) ∧
    (∀ s, x = some s → s ≠ "" →
      (startsWithHash (pyStrip s) = false →
        format_agent_response x = headingText ++ pyStrip s) ∧
      (startsWithHash (pyStrip s) = true → format_agent_response x = pyStrip s)) ∧
    format_agent_response x ≠ "" := by
  refine ⟨format_falsy_eq x, ?_, format_ne_empty x⟩
  intro s hx hs
  subst hx
  exact ⟨format_unheaded_eq s hs, format_headed_eq s hs⟩

/-- C8 witness: on the concrete unheaded input `"hi"` the formatter prepends
the generic heading. -/
theorem format_agent_response_spec_witness :
    format_agent_response (some "hi") = headingText ++ pyStrip "hi" :=
  ((format_agent_response_spec (some "hi")).2.1 "hi" rfl (by decide)).1 (by decide)

/-! ## Claim C4 -/

/-- C4 counterexample: `"hello"` is a non-absent input that does not begin
with a heading marker, yet `format(format("hello")) = format("hello")` — the
prepended heading itself begins with `'#'`, so a second application returns
its input unchanged and no double-prefixing occurs. -/
theorem format_not_idempotent_counterexample :
    ("hello" ≠ "" ∧ startsWithHash (pyStrip "hello") = false) ∧
    format_agent_response (some (format_agent_response (some "hello"))) =
      format_agent_response (some "hello") := by
  constructor
  · constructor
    · decide
    · decide
  · decide

/-- C4 amended: on unheaded non-absent input the formatter is idempotent
whenever the trimmed content is non-empty (the prepended heading starts with
`'#'`, so double-prefixing is impossible); idempotence fails exactly for
input consisting solely of characters `str.strip()` removes (the Python
whitespace set, including NBSP, NEL and the 0x1c-0x1f controls), where the
second application strips the blank lines that the first application left
after the heading. -/
theorem format_idempotence_characterization (s : String) (hs : s ≠ "")
    (hh : startsWithHash (pyStrip s) = false) :
    (pyStrip s ≠ "" →
      format_agent_response (some (format_agent_response (some s))) =
        format_agent_response (some s)) ∧
    (pyStrip s = "" →
      format_agent_response (some (format_agent_response (some s))) ≠
        format_agent_response (some s)) := by
  constructor
  · intro hne
    rw [format_unheaded_eq s hs hh]
    have hne2 : headingText ++ pyStrip s ≠ "" := strAppendNeEmpty _ _ (by decide)
    have hhash : startsWithHash (pyStrip (headingText ++ pyStrip s)) = true := by
      rw [pyStrip_heading_append s hne]
      exact startsWithHash_append _ _ (by decide)
    rw [format_headed_eq _ hne2 hhash]
    exact pyStrip_heading_append s hne
  · intro hz
    rw [format_unheaded_eq s hs hh, hz, strAppendEmpty]
    decide

/-- C4 amended witness: the non-breaking-space-only input `"\xa0"` — which
`str.strip()` removes entirely — concretely violates idempotence. -/
theorem format_idempotence_characterization_witness :
    format_agent_response (some (format_agent_response (some "\xa0"))) ≠
      format_agent_response (some "\xa0") :=
  (format_idempotence_characterization "\xa0" (by decide) (by decide)).2 (by decide)

/-! ## Claim C5 -/

/-- C5: `extract_message_content` never surfaces an error: an absent or empty
content list yields `none`, any exception raised inside the scan is caught and
yields `none`, a first part exposing a text value yields that value, and a
single part lacking a text value (whether or not it is text-typed) yields
`none`. -/
theorem extract_message_content_safe (m : ThreadMessage) :
    (m.content = none → extract_message_content m = none) ∧
    (m.content = some [] → extract_message_content m = none) ∧
    (∀ e, extractBody m = Except.error e → extract_message_content m = none) ∧
    (∀ ci rest v tv, m.content = some (ci :: rest) → ci.text = some tv →
      tv.value = some v → extract_message_content m = some v) ∧
    (∀ ci, m.content = some [ci] → (∀ tv, ci.text = some tv → tv.value = none) →
      extract_message_content m = none) := by
  refine ⟨?_, ?_, ?_, ?_, ?_⟩
  · intro h
    unfold extract_message_content extractBody
    rw [h]
  · intro h
    unfold extract_message_content extractBody
    rw [h]
  · intro e h
    unfold extract_message_content
    rw [h]
  · intro ci rest v tv hc ht hv
    simp [extract_message_content, extractBody, extractLoop, extractStep, hc, ht, hv]
  · intro ci hc hno
    cases ht : ci.text with
    | none =>
      by_cases hty : ci.type = some "text"
      · simp [extract_message_content, extractBody, extractLoop, extractStep, hc, ht, hty]
      · simp [extract_message_content, extractBody, extractLoop, extractStep, hc, ht, hty]
    | some tv =>
      by_cases hty : ci.type = some "text"
      · simp [extract_message_content, extractBody, extractLoop, extractStep, hc, ht,
          hno tv ht, hty]
      · simp [extract_message_content, extractBody, extractLoop, extractStep, hc, ht,
          hno tv ht, hty]

/-- C5 witness: a single non-text-typed part without a text value yields
`none` rather than an error. -/
theorem extract_message_content_safe_witness :
    extract_message_content ⟨"assistant", 0, some [⟨none, some "image"⟩]⟩ = none :=
  (extract_message_content_safe ⟨"assistant", 0, some [⟨none, some "image"⟩]⟩).2.2.2.2
    ⟨none, some "image"⟩ rfl (fun _ h => Option.noConfusion h)

/-! ## Claim C9 -/

/-- C9 counterexample: with only the endpoint missing (API key and agent id
present), the raised message still names `AZURE_AI_FOUNDRY_API_KEY` — a
setting that is not missing — and is the very same message raised when a
different subset is missing.  The message therefore does not list exactly the
missing settings; it is a fixed listing of all three. -/
theorem config_validation_counterexample :
    validateConfig none (some "key") (some "agent") = Except.error configErrorText ∧
    (∃ p q, configErrorText = p ++ "AZURE_AI_FOUNDRY_API_KEY" ++ q) ∧
    validateConfig none (some "key") (some "agent") =
      validateConfig (some "endpoint") (some "key") none := by
  refine ⟨rfl, ⟨"Missing required environment variables. Please ensure you have set:\n- AZURE_AI_FOUNDRY_ENDPOINT\n- ", "\n- AZURE_AI_FOUNDRY_AGENT_ID", by decide⟩, rfl⟩

/-- C9 amended: if any of the three required configuration values is missing
(absent or empty), startup raises a fatal error whose fixed message lists all
three required setting names, regardless of which of them are missing. -/
theorem config_validation_fixed_message (e k a : Option String)
    (h : ¬(truthyOpt e = true ∧ truthyOpt k = true ∧ truthyOpt a = true)) :
    validateConfig e k a = Except.error configErrorText ∧
    (∃ p q, configErrorText = p ++ "AZURE_AI_FOUNDRY_ENDPOINT" ++ q) ∧
    (∃ p q, configErrorText = p ++ "AZURE_AI_FOUNDRY_API_KEY" ++ q) ∧
    (∃ p q, configErrorText = p ++ "AZURE_AI_FOUNDRY_AGENT_ID" ++ q) := by
  refine ⟨?_, ⟨"Missing required environment variables. Please ensure you have set:\n- ", "\n- AZURE_AI_FOUNDRY_API_KEY\n- AZURE_AI_FOUNDRY_AGENT_ID", by decide⟩,
    ⟨"Missing required environment variables. Please ensure you have set:\n- AZURE_AI_FOUNDRY_ENDPOINT\n- ", "\n- AZURE_AI_FOUNDRY_AGENT_ID", by decide⟩,
    ⟨"Missing required environment variables. Please ensure you have set:\n- AZURE_AI_FOUNDRY_ENDPOINT\n- AZURE_AI_FOUNDRY_API_KEY\n- ", "", by decide⟩⟩
  unfold validateConfig
  rw [if_neg]
  intro hb
  apply h
  simp only [Bool.and_eq_true] at hb
  exact ⟨hb.1.1, hb.1.2, hb.2⟩

/-- C9 amended witness: with all three values absent, the fixed error is
raised. -/
theorem config_validation_fixed_message_witness :
    validateConfig none none none = Except.error configErrorText :=
  (config_validation_fixed_message none none none (by decide)).1

/-! ## Claim C10 -/

/-- C10: when the session has no `thread_id`, `handle_message` renders the
session-error notice and performs no remote operation at all — the recorded
trace of remote calls is empty, so no message is appended, no run is created
and no run status is polled. -/
theorem handle_message_no_thread_no_remote_ops (env : Env) (fuel : Nat)
    (h : env.thread_id = none) :
    handle_message env fuel = some (sessionErrorText, []) := by
  unfold handle_message
  rw [h]

/-- C10 witness: the concrete environment without a thread id. -/
theorem handle_message_no_thread_no_remote_ops_witness :
    handle_message emptyEnv 0 = some (sessionErrorText, []) :=
  handle_message_no_thread_no_remote_ops emptyEnv 0 rfl

/-! ## Poll loop lemmas -/

theorem waitGo_finished_terminal (env : Env) (mw : Nat) :
    ∀ f k run acts, waitGo env mw k f = some (WaitRes.finished run, acts) →
      isTerminal run.status = true := by
  intro f
  induction f with
  | zero => intro k run acts h; exact Option.noConfusion h
  | succ f ih =>
    intro k run acts h
    unfold waitGo at h
    by_cases ht : isTerminal (env.poll k).status = true
    · rw [if_pos ht] at h
      obtain ⟨h1, _⟩ := Prod.mk.injEq .. ▸ Option.some.inj h
      cases h1
      exact ht
    · rw [if_neg ht] at h
      by_cases htime : mw < env.clock k - env.t0
      · rw [if_pos htime] at h
        cases hc : cancelOutcome env with
        | ok u => rw [hc] at h; exact absurd (congrArg Prod.fst (Option.some.inj h)) (by simp)
        | error u => rw [hc] at h; exact absurd (congrArg Prod.fst (Option.some.inj h)) (by simp)
      · rw [if_neg htime] at h
        cases hr : waitGo env mw (k + 1) f with
        | none => rw [hr] at h; exact Option.noConfusion h
        | some p =>
          rw [hr] at h
          obtain ⟨r, as⟩ := p
          have h1 := congrArg Prod.fst (Option.some.inj h)
          simp at h1
          exact ih (k + 1) run as (by rw [hr, h1])

theorem waitGo_stops (env : Env) (mw : Nat)
    (hmono : ∀ k, env.clock k + 1 ≤ env.clock (k + 1)) :
    ∀ f k, k ≤ mw + 1 → mw + 2 ≤ k + f → env.t0 + k ≤ env.clock k →
      ∃ out, waitGo env mw k f = some out := by
  intro f
  induction f with
  | zero => intro k hk1 hk2 _; omega
  | succ f ih =>
    intro k hk1 hk2 hck
    by_cases ht : isTerminal (env.poll k).status = true
    · exact ⟨(WaitRes.finished (env.poll k), [RemoteAction.getRun]), by
        unfold waitGo; rw [if_pos ht]⟩
    · by_cases htime : mw < env.clock k - env.t0
      · refine ⟨(WaitRes.timedOut mw, [RemoteAction.getRun, RemoteAction.cancelRun]), ?_⟩
        unfold waitGo
        rw [if_neg ht, if_pos htime]
        cases hc : cancelOutcome env with
        | ok u => rfl
        | error u => rfl
      · have hkmw : k ≤ mw := by omega
        obtain ⟨out, hout⟩ := ih (k + 1) (by omega) (by omega)
          (by have := hmono k; omega)
        obtain ⟨r, as⟩ := out
        refine ⟨(r, RemoteAction.getRun :: as), ?_⟩
        unfold waitGo
        rw [if_neg ht, if_neg htime, hout]

theorem waitGo_never_terminal (env : Env) (mw : Nat)
    (hnt : ∀ k, isTerminal (env.poll k).status = false) :
    ∀ f k out, waitGo env mw k f = some out →
      out.1 = WaitRes.timedOut mw ∧ out.2.count RemoteAction.cancelRun = 1 := by
  intro f
  induction f with
  | zero => intro k out h; exact Option.noConfusion h
  | succ f ih =>
    intro k out h
    unfold waitGo at h
    rw [if_neg (by rw [hnt k]; exact Bool.false_ne_true)] at h
    by_cases htime : mw < env.clock k - env.t0
    · rw [if_pos htime] at h
      have hout : out = (WaitRes.timedOut mw, [RemoteAction.getRun, RemoteAction.cancelRun]) := by
        cases hc : cancelOutcome env with
        | ok u => rw [hc] at h; exact (Option.some.inj h).symm
        | error u => rw [hc] at h; exact (Option.some.inj h).symm
      rw [hout]
      exact ⟨rfl, rfl⟩
    · rw [if_neg htime] at h
      cases hr : waitGo env mw (k + 1) f with
      | none => rw [hr] at h; exact Option.noConfusion h
      | some p =>
        rw [hr] at h
        obtain ⟨r, as⟩ := p
        have h1 := Option.some.inj h
        obtain ⟨hp, _⟩ := ih (k + 1) (r, as) hr
        rw [← h1]
        refine ⟨hp, ?_⟩
        simp only [List.count_cons]
        rw [(ih (k + 1) (r, as) hr).2]
        decide

theorem setCancelFails_poll (env : Env) (b : Bool) :
    (setCancelFails env b).poll = env.poll := rfl

theorem setCancelFails_clock (env : Env) (b : Bool) :
    (setCancelFails env b).clock = env.clock := rfl

theorem setCancelFails_t0 (env : Env) (b : Bool) :
    (setCancelFails env b).t0 = env.t0 := rfl

theorem waitGo_cancelFails_irrelevant (env : Env) (mw : Nat) (b : Bool) :
    ∀ f k, waitGo (setCancelFails env b) mw k f = waitGo env mw k f := by
  intro f
  induction f with
  | zero => intro k; rfl
  | succ f ih =>
    intro k
    unfold waitGo
    rw [setCancelFails_poll, setCancelFails_clock, setCancelFails_t0]
    by_cases ht : isTerminal (env.poll k).status = true
    · rw [if_pos ht, if_pos ht]
    · rw [if_neg ht, if_neg ht]
      by_cases htime : mw < env.clock k - env.t0
      · rw [if_pos htime, if_pos htime]
        cases hc : cancelOutcome env with
        | ok u =>
          cases hc2 : cancelOutcome (setCancelFails env b) with
          | ok v => rfl
          | error v => rfl
        | error u =>
          cases hc2 : cancelOutcome (setCancelFails env b) with
          | ok v => rfl
          | error v => rfl
      · rw [if_neg htime, if_neg htime, ih (k + 1)]

/-! ## Claim C2 -/

/-- C2: under a clock that starts at or after `start_time` and advances by at
least one unit per sleep tick, the poll loop always stops within
`max_wait_time + 2` iterations: it yields an outcome, and whenever that
outcome is a returned run, the run's status lies in the terminal set
`{completed, failed, cancelled, expired}`; otherwise the outcome is the
raised timeout.  It never polls indefinitely. -/
theorem wait_for_run_completion_terminates (env : Env) (maxWait : Nat)
    (h0 : env.t0 ≤ env.clock 0)
    (hmono : ∀ k, env.clock k + 1 ≤ env.clock (k + 1)) :
    ∃ out, wait_for_run_completion env maxWait (maxWait + 2) = some out ∧
      ∀ run acts, out = (WaitRes.finished run, acts) → isTerminal run.status = true := by
  obtain ⟨out, hout⟩ :=
    waitGo_stops env maxWait hmono (maxWait + 2) 0 (by omega) (by omega) (by omega)
  refine ⟨out, hout, ?_⟩
  intro run acts h
  exact waitGo_finished_terminal env maxWait (maxWait + 2) 0 run acts (by rw [hout, h])

/-- C2 witness: the environment whose run never leaves `in_progress` and whose
clock ticks one unit per poll stops within 62 iterations at timeout 60. -/
theorem wait_for_run_completion_terminates_witness :
    ∃ out, wait_for_run_completion stuckEnv 60 (60 + 2) = some out ∧
      ∀ run acts, out = (WaitRes.finished run, acts) → isTerminal run.status = true :=
  wait_for_run_completion_terminates stuckEnv 60 (Nat.le_refl 0) (fun k => Nat.le_refl (k + 1))

/-! ## Claim C3 -/

/-- C3: if no polled status is ever terminal, the loop stops with the
distinguishable timeout outcome, the trace of remote calls contains exactly
one cancel call, and the result is unchanged whether or not the cancel call
fails (its failure is swallowed). -/
theorem wait_timeout_cancel_once (env : Env) (maxWait : Nat)
    (h0 : env.t0 ≤ env.clock 0)
    (hmono : ∀ k, env.clock k + 1 ≤ env.clock (k + 1))
    (hnt : ∀ k, isTerminal (env.poll k).status = false) :
    ∃ acts, wait_for_run_completion env maxWait (maxWait + 2) =
        some (WaitRes.timedOut maxWait, acts) ∧
      acts.count RemoteAction.cancelRun = 1 ∧
      ∀ b, wait_for_run_completion (setCancelFails env b) maxWait (maxWait + 2) =
        wait_for_run_completion env maxWait (maxWait + 2) := by
  obtain ⟨out, hout⟩ :=
    waitGo_stops env maxWait hmono (maxWait + 2) 0 (by omega) (by omega) (by omega)
  obtain ⟨h1, h2⟩ := waitGo_never_terminal env maxWait hnt (maxWait + 2) 0 out hout
  obtain ⟨r, as⟩ := out
  have hr : r = WaitRes.timedOut maxWait := h1
  have ha : as.count RemoteAction.cancelRun = 1 := h2
  subst hr
  refine ⟨as, hout, ha, ?_⟩
  intro b
  exact waitGo_cancelFails_irrelevant env maxWait b (maxWait + 2) 0

/-- C3 witness: the never-terminal environment times out with exactly one
cancel call. -/
theorem wait_timeout_cancel_once_witness :
    ∃ acts, wait_for_run_completion stuckEnv 60 (60 + 2) =
        some (WaitRes.timedOut 60, acts) ∧
      acts.count RemoteAction.cancelRun = 1 ∧
      ∀ b, wait_for_run_completion (setCancelFails stuckEnv b) 60 (60 + 2) =
        wait_for_run_completion stuckEnv 60 (60 + 2) :=
  wait_timeout_cancel_once stuckEnv 60 (Nat.le_refl 0) (fun k => Nat.le_refl (k + 1)) (fun _ => rfl)

/-! ## Coordinator lemmas -/

theorem fallbackText_cons (m : ThreadMessage) (rest : List ThreadMessage) (t : Nat) :
    fallbackText (m :: rest) t =
      if m.role = "assistant" ∧ t ≤ m.created_at then
        match extract_message_content m with
        | some v => if v = "" then fallbackText rest t else some v
        | none => fallbackText rest t
      else fallbackText rest t := rfl

theorem fallbackText_eq (t : Nat) :
    ∀ msgs, fallbackText msgs t =
      (msgs.find? (qualifyingAssistant t)).bind extract_message_content := by
  intro msgs
  induction msgs with
  | nil => rfl
  | cons m rest ih =>
    rw [fallbackText_cons]
    by_cases hq : qualifyingAssistant t m = true
    · rw [List.find?_cons_of_pos _ hq]
      have hq2 := hq
      simp only [qualifyingAssistant, Bool.and_eq_true, beq_iff_eq, decide_eq_true_eq,
        bne_iff_ne, ne_eq] at hq2
      obtain ⟨⟨h1, h2⟩, h3⟩ := hq2
      rw [if_pos ⟨h1, h2⟩]
      cases he : extract_message_content m with
      | none => rw [he] at h3; exact absurd rfl h3
      | some v =>
        rw [he] at h3
        have hv : ¬(v = "") := by simpa using h3
        simp [he, hv]
    · rw [List.find?_cons_of_neg _ (by simp [hq]), ← ih]
      by_cases hc : m.role = "assistant" ∧ t ≤ m.created_at
      · rw [if_pos hc]
        cases he : extract_message_content m with
        | none => simp [he]
        | some v =>
          have hv : v = "" := by
            by_contra hv
            exact hq (by simp [qualifyingAssistant, hc.1, hc.2, he, hv])
          simp [he, hv]
      · rw [if_neg hc]

theorem completedBranch_fst (env : Env) (run : RunRec) (acts : List RemoteAction) :
    (completedBranch env run acts).1 = expectedCompletedText env run := by
  unfold completedBranch expectedCompletedText
  cases hp : primaryText env.lastMsgText with
  | some s => rfl
  | none =>
    rw [fallbackText_eq]
    cases hf : env.messages.find? (qualifyingAssistant run.created_at) with
    | none => rfl
    | some m =>
      have hqm : qualifyingAssistant run.created_at m = true := List.find?_some hf
      have h3 : (extract_message_content m).getD "" ≠ "" := by
        simp only [qualifyingAssistant, Bool.and_eq_true, bne_iff_ne, ne_eq] at hqm
        exact hqm.2
      cases he : extract_message_content m with
      | none => rw [he] at h3; exact absurd rfl h3
      | some v => simp [he]

theorem handle_message_finished (env : Env) (fuel : Nat) (tid : String) (run : RunRec)
    (acts : List RemoteAction) (ht : env.thread_id = some tid) (htne : tid ≠ "")
    (hw : waitGo env 60 0 fuel = some (WaitRes.finished run, acts)) :
    handle_message env fuel = some (afterWait env (WaitRes.finished run)
      ([RemoteAction.createMessage, RemoteAction.createRun] ++ acts)) := by
  unfold handle_message
  rw [ht]
  show (if tid = "" then _ else _) = _
  rw [if_neg htne, hw]

theorem afterWait_finished (env : Env) (run : RunRec) (acts : List RemoteAction) :
    afterWait env (WaitRes.finished run) acts =
      if run.status = "completed" then
        completedBranch env run (acts ++ [RemoteAction.getLastMessageText])
      else if run.status = "failed" then (failedText (lastErrorMessage run), acts)
      else (unexpectedText run.status, acts) := rfl

/-! ## Claim C1 -/

/-- C1: whenever the poll loop returns a run with status `completed`,
`handle_message` sends exactly the formatted text predicted by the spec: the
primary convenience call's text when that call succeeds with non-empty text,
otherwise the extracted text of the first listed message with assistant role,
`created_at >= run.created_at` and non-empty extracted text; and when neither
path yields text, the sentinel no-response notice (a normal send, not an
error). -/
theorem handle_message_completed_response (env : Env) (fuel : Nat) (tid : String)
    (run : RunRec) (acts : List RemoteAction)
    (ht : env.thread_id = some tid) (htne : tid ≠ "")
    (hw : waitGo env 60 0 fuel = some (WaitRes.finished run, acts))
    (hc : run.status = "completed") :
    ∃ as, handle_message env fuel = some (expectedCompletedText env run, as) := by
  have hh := handle_message_finished env fuel tid run acts ht htne hw
  rw [afterWait_finished, if_pos hc] at hh
  refine ⟨(completedBranch env run (([RemoteAction.createMessage, RemoteAction.createRun]
    ++ acts) ++ [RemoteAction.getLastMessageText])).2, ?_⟩
  rw [hh, ← completedBranch_fst env run (([RemoteAction.createMessage, RemoteAction.createRun]
    ++ acts) ++ [RemoteAction.getLastMessageText])]

/-- C1 witness: a run completing on the first poll with a successful primary
text fetch renders the formatted primary text. -/
theorem handle_message_completed_response_witness :
    ∃ as, handle_message (sampleEnv "completed" (Except.ok (some "hello"))) 1 =
      some (expectedCompletedText (sampleEnv "completed" (Except.ok (some "hello")))
        (sampleRun "completed"), as) :=
  handle_message_completed_response (sampleEnv "completed" (Except.ok (some "hello"))) 1 "t"
    (sampleRun "completed") [RemoteAction.getRun] rfl (by decide) rfl rfl

/-! ## Claim C6 -/

/-- C6: for a run returned with status `failed`, `handle_message` sends a
normal renderable failure notice (not a raised error) built around
`lastErrorMessage run`, which is the literal `"Unknown error"` when
`last_error` is absent or lacks a `message`, and the carried message when
present; the notice textually contains that error message. -/
theorem handle_message_failed_unknown_error (env : Env) (fuel : Nat) (tid : String)
    (run : RunRec) (acts : List RemoteAction)
    (ht : env.thread_id = some tid) (htne : tid ≠ "")
    (hw : waitGo env 60 0 fuel = some (WaitRes.finished run, acts))
    (hf : run.status = "failed") :
    (∃ as, handle_message env fuel = some (failedText (lastErrorMessage run), as)) ∧
    (∃ p q, failedText (lastErrorMessage run) = p ++ lastErrorMessage run ++ q) ∧
    (run.last_error = none → lastErrorMessage run = "Unknown error") ∧
    (∀ le, run.last_error = some le → le.message = none →
      lastErrorMessage run = "Unknown error") ∧
    (∀ le msg, run.last_error = some le → le.message = some msg →
      lastErrorMessage run = msg) := by
  have hh := handle_message_finished env fuel tid run acts ht htne hw
  rw [afterWait_finished, if_neg (by rw [hf]; decide), if_pos hf] at hh
  refine ⟨⟨_, hh⟩, ⟨failedTextPre, failedTextPost, rfl⟩, ?_, ?_, ?_⟩
  · intro h
    simp [lastErrorMessage, h]
  · intro le h hm
    simp [lastErrorMessage, h, hm]
  · intro le msg h hm
    simp [lastErrorMessage, h, hm]

/-- C6 witness: a first-poll `failed` run without `last_error` renders the
failure notice around the literal `"Unknown error"`. -/
theorem handle_message_failed_unknown_error_witness :
    (∃ as, handle_message (sampleEnv "failed" (Except.error ())) 1 =
      some (failedText (lastErrorMessage (sampleRun "failed")), as)) ∧
    (∃ p q, failedText (lastErrorMessage (sampleRun "failed")) =
      p ++ lastErrorMessage (sampleRun "failed") ++ q) ∧
    ((sampleRun "failed").last_error = none →
      lastErrorMessage (sampleRun "failed") = "Unknown error") ∧
    (∀ le, (sampleRun "failed").last_error = some le → le.message = none →
      lastErrorMessage (sampleRun "failed") = "Unknown error") ∧
    (∀ le msg, (sampleRun "failed").last_error = some le → le.message = some msg →
      lastErrorMessage (sampleRun "failed") = msg) :=
  handle_message_failed_unknown_error (sampleEnv "failed" (Except.error ())) 1 "t"
    (sampleRun "failed") [RemoteAction.getRun] rfl (by decide) rfl rfl

/-! ## Claim C7 -/

/-- C7: for a run returned by the poll loop whose status is neither
`completed` nor `failed` (`cancelled`, `expired`, or any unrecognized string),
`handle_message` sends the unexpected-status notice, which textually carries
the literal status string. -/
theorem handle_message_unexpected_status (env : Env) (fuel : Nat) (tid : String)
    (run : RunRec) (acts : List RemoteAction)
    (ht : env.thread_id = some tid) (htne : tid ≠ "")
    (hw : waitGo env 60 0 fuel = some (WaitRes.finished run, acts))
    (h1 : run.status ≠ "completed") (h2 : run.status ≠ "failed") :
    (∃ as, handle_message env fuel = some (unexpectedText run.status, as)) ∧
    (∃ p q, unexpectedText run.status = p ++ run.status ++ q) := by
  have hh := handle_message_finished env fuel tid run acts ht htne hw
  rw [afterWait_finished, if_neg h1, if_neg h2] at hh
  exact ⟨⟨_, hh⟩, ⟨unexpectedTextPre, unexpectedTextPost, rfl⟩⟩

/-- C7 witness: a first-poll `cancelled` run renders the unexpected-status
notice carrying `"cancelled"`. -/
theorem handle_message_unexpected_status_witness :
    (∃ as, handle_message (sampleEnv "cancelled" (Except.error ())) 1 =
      some (unexpectedText (sampleRun "cancelled").status, as)) ∧
    (∃ p q, unexpectedText (sampleRun "cancelled").status =
      p ++ (sampleRun "cancelled").status ++ q) :=
  handle_message_unexpected_status (sampleEnv "cancelled" (Except.error ())) 1 "t"
    (sampleRun "cancelled") [RemoteAction.getRun] rfl (by decide) rfl
    (by decide) (by decide)
